import Mathlib

/-!
Verification of the inventory module (`src/inventory.py`).

The module keeps a global dict `stock_data` mapping item names to integer
quantities, with operations `add_item`, `remove_item`, `get_qty`,
`load_data`, `save_data`, `print_data` and `check_low_items`.

Embedding choices:
* Python dynamic values passed to `add_item`/`remove_item` are modelled by
  `PyVal` (strings, unbounded integers, booleans, `None`).  Python's
  `isinstance(qty, int)` is true for booleans, and the model mirrors that.
* The dict is an association list in insertion order.  `d[k] = v` updates
  the first (unique, in reachable states) binding in place or appends a
  fresh binding at the end; `del d[k]` removes the binding; `d.get(k, 0)`
  looks the key up with default `0`; membership and iteration follow.
* JSON documents are modelled by `JVal`, and the file system by a map
  `String → FileContent` where a file is absent, holds malformed JSON, or
  holds a document that parses to a `JVal`.  `json.dump` of the stock dict
  writes a document that `json.load` parses back to the same value, so
  `save_data` stores the `JVal` and `load_data` reads it back; I/O errors
  on write are outside this file-system model.
* `datetime.now()` is an opaque input string `now` threaded into
  `add_item` for its log line.
-/

set_option autoImplicit false

namespace InventoryPy

/-- Dynamic Python values that the module's validation code inspects. -/
inductive PyVal where
  | vstr : String → PyVal
  | vint : Int → PyVal
  | vbool : Bool → PyVal
  | vnone : PyVal
  deriving DecidableEq, Repr

/-- Python truthiness (`not x` is the negation of this). -/
def truthy : PyVal → Bool
  | .vstr s => !(s == "")
  | .vint n => !(n == 0)
  | .vbool b => b
  | .vnone => false

/-- Python `isinstance(x, str)`. -/
def isStr : PyVal → Bool
  | .vstr _ => true
  | _ => false

/-- Python `isinstance(x, int)`: true for `int` and for `bool` (a subclass of `int`). -/
def isInt : PyVal → Bool
  | .vint _ => true
  | .vbool _ => true
  | _ => false

/-- The string carried by a `str` value (only used under an `isStr` guard). -/
def strVal : PyVal → String
  | .vstr s => s
  | _ => ""

/-- The integer a value stands for in arithmetic (`True` counts as 1). -/
def intVal : PyVal → Int
  | .vint n => n
  | .vbool b => if b then 1 else 0
  | _ => 0

/-- Python `str(x)` as used in the f-string of the log line. -/
def pyStr : PyVal → String
  | .vstr s => s
  | .vint n => toString n
  | .vbool b => if b then "True" else "False"
  | .vnone => "None"

/-- The in-memory inventory dict: bindings in insertion order. -/
abbrev Inv := List (String × Int)

/-- Lookup `d.get(k, dflt)`. -/
def dictGet : Inv → String → Int → Int
  | [], _, dflt => dflt
  | p :: d, k, dflt => if p.1 == k then p.2 else dictGet d k dflt

/-- Membership test `k in d`. -/
def dictMem : Inv → String → Bool
  | [], _ => false
  | p :: d, k => p.1 == k || dictMem d k

/-- Assignment `d[k] = v`: overwrite the binding in place, or append a new one. -/
def dictSet : Inv → String → Int → Inv
  | [], k, v => [(k, v)]
  | p :: d, k, v => if p.1 == k then (k, v) :: d else p :: dictSet d k v

/-- Deletion `del d[k]`. -/
def dictDel : Inv → String → Inv
  | [], _ => []
  | p :: d, k => if p.1 == k then d else p :: dictDel d k

/-- Function `add_item(item, qty, logs)` with the timestamp passed in as `now`.
Returns the new `stock_data`, the new `logs`, and the boolean result. -/
def add_item (stock : Inv) (item qty : PyVal) (logs : List String)
    (now : String) : Inv × List String × Bool :=
  if !truthy item || !isStr item then
    (stock, logs, false)
  else if !isInt qty || intVal qty < 0 then
    (stock, logs, false)
  else
    (dictSet stock (strVal item) (dictGet stock (strVal item) 0 + intVal qty),
     logs ++ [now ++ ": Added " ++ pyStr qty ++ " of " ++ pyStr item],
     true)

/-- Function `remove_item(item, qty)` for a string item key.  The `KeyError` /
`ValueError` raised inside are caught by the function's own handler, which
returns `False`; the caller only ever sees the boolean. -/
def remove_item (stock : Inv) (item : String) (qty : PyVal) : Inv × Bool :=
  if !dictMem stock item then
    (stock, false)
  else if !isInt qty || intVal qty < 0 then
    (stock, false)
  else
    let newv := dictGet stock item 0 - intVal qty
    if newv ≤ 0 then (dictDel stock item, true)
    else (dictSet stock item newv, true)

/-- Function `get_qty(item)`. -/
def get_qty (stock : Inv) (item : String) : Int :=
  dictGet stock item 0

/-- Function `check_low_items(threshold)`: the loop appends, in iteration order,
every item whose quantity is strictly below the threshold. -/
def check_low_items : Inv → Int → List String
  | [], _ => []
  | p :: d, t => if p.2 < t then p.1 :: check_low_items d t else check_low_items d t

/-- JSON documents (`json.load` results / `json.dump` inputs). -/
inductive JVal where
  | obj : List (String × JVal) → JVal
  | arr : List JVal → JVal
  | str : String → JVal
  | int : Int → JVal
  | bool : Bool → JVal
  | null : JVal

/-- A file on disk, abstracted at the JSON-parsing level: missing
(`FileNotFoundError` on open), present but malformed (`json.JSONDecodeError`),
or present with a document parsing to a `JVal`. -/
inductive FileContent where
  | absent : FileContent
  | malformed : FileContent
  | json : JVal → FileContent

/-- The file system: content of the file at each path. -/
abbrev FS := String → FileContent

/-- Function `load_data(file)`: on success replaces `stock_data` wholesale with the
parsed document; on `FileNotFoundError` resets `stock_data` to `{}` and
returns `False`; on `JSONDecodeError` returns `False` leaving `stock_data`
as it was.  Returns the new `stock_data` and the boolean result. -/
def load_data (fs : FS) (stock : JVal) (file : String) : JVal × Bool :=
  match fs file with
  | .json v => (v, true)
  | .absent => (JVal.obj [], false)
  | .malformed => (stock, false)

/-- Function `save_data(file)`: writes the current `stock_data` as a JSON document at
`file`.  (I/O errors on write are outside the file-system model, so the
`IOError` branch returning `False` is unreachable here.) -/
def save_data (fs : FS) (stock : JVal) (file : String) : FS × Bool :=
  (fun p => if p = file then FileContent.json stock else fs p, true)

/-- The stock dict as the JSON document `save_data` serializes. -/
def ofInv (inv : Inv) : JVal :=
  JVal.obj (inv.map fun p => (p.1, JVal.int p.2))

/-- The spec's inventory invariant: no stored entry has quantity ≤ 0. -/
def invOk (inv : Inv) : Bool :=
  inv.all fun p => decide (0 < p.2)

/-- The weaker invariant that no stored entry is strictly negative. -/
def invNonneg (inv : Inv) : Bool :=
  inv.all fun p => decide (0 ≤ p.2)

/-- The invariant read on a raw JSON document: if it is an object, no
integer-valued entry is ≤ 0 (non-objects store no entries at all). -/
def jinvOk : JVal → Bool
  | .obj l => l.all fun p => match p.2 with
      | .int n => decide (0 < n)
      | _ => true
  | _ => true

/-- Value of `jinvOk` at the document a file holds, when it holds one. -/
def fileInvOk : FileContent → Bool
  | .json v => jinvOk v
  | _ => true

/-! ### Dictionary lemmas -/

theorem dictGet_dictSet_self (d : Inv) (k : String) (v : Int) :
    dictGet (dictSet d k v) k 0 = v := by
  induction d with
  | nil => simp [dictSet, dictGet]
  | cons p d ih =>
      by_cases h : p.1 = k
      · simp [dictSet, dictGet, h]
      · simp [dictSet, dictGet, h, ih]

theorem dictMem_eq_true_iff (d : Inv) (k : String) :
    dictMem d k = true ↔ k ∈ d.map Prod.fst := by
  induction d with
  | nil => simp [dictMem]
  | cons p d ih =>
      simp only [dictMem, Bool.or_eq_true, beq_iff_eq, ih, List.map_cons,
        List.mem_cons]
      constructor
      · rintro (h | h)
        exacts [Or.inl h.symm, Or.inr h]
      · rintro (h | h)
        exacts [Or.inl h.symm, Or.inr h]

theorem mem_dictSet (d : Inv) (k : String) (v : Int) (q : String × Int)
    (hq : q ∈ dictSet d k v) : q = (k, v) ∨ q ∈ d := by
  induction d with
  | nil => simpa [dictSet] using hq
  | cons p d ih =>
      rw [dictSet] at hq
      split at hq
      · rcases List.mem_cons.mp hq with hq | hq
        · exact Or.inl hq
        · exact Or.inr (List.mem_cons_of_mem _ hq)
      · rcases List.mem_cons.mp hq with hq | hq
        · exact Or.inr (by simp [hq])
        · rcases ih hq with h1 | h1
          · exact Or.inl h1
          · exact Or.inr (List.mem_cons_of_mem _ h1)

theorem mem_dictDel (d : Inv) (k : String) (q : String × Int)
    (hq : q ∈ dictDel d k) : q ∈ d := by
  induction d with
  | nil => simp [dictDel] at hq
  | cons p d ih =>
      rw [dictDel] at hq
      split at hq
      · exact List.mem_cons_of_mem _ hq
      · rcases List.mem_cons.mp hq with hq | hq
        · simp [hq]
        · exact List.mem_cons_of_mem _ (ih hq)

theorem dictGet_of_not_mem (d : Inv) (k : String) (dflt : Int)
    (h : dictMem d k = false) : dictGet d k dflt = dflt := by
  induction d with
  | nil => rfl
  | cons p d ih =>
      simp only [dictMem, Bool.or_eq_false_iff] at h
      simp [dictGet, h.1, ih h.2, beq_eq_false_iff_ne.mp h.1]

theorem dictGet_pos_of_mem (d : Inv) (k : String)
    (hinv : invOk d = true) (hmem : dictMem d k = true) :
    0 < dictGet d k 0 := by
  induction d with
  | nil => simp [dictMem] at hmem
  | cons p d ih =>
      simp only [invOk, List.all_cons, Bool.and_eq_true, decide_eq_true_eq] at hinv
      by_cases h : p.1 = k
      · simpa [dictGet, h] using hinv.1
      · simp only [dictMem, Bool.or_eq_true, beq_iff_eq, h, false_or] at hmem
        simpa [dictGet, h] using ih hinv.2 hmem

theorem dictGet_nonneg (d : Inv) (k : String)
    (hinv : invNonneg d = true) : 0 ≤ dictGet d k 0 := by
  induction d with
  | nil => simp [dictGet]
  | cons p d ih =>
      simp only [invNonneg, List.all_cons, Bool.and_eq_true, decide_eq_true_eq] at hinv
      by_cases h : p.1 = k
      · simpa [dictGet, h] using hinv.1
      · simpa [dictGet, h] using ih hinv.2

theorem invOk_dictSet (d : Inv) (k : String) (v : Int)
    (hinv : invOk d = true) (hv : 0 < v) : invOk (dictSet d k v) = true := by
  simp only [invOk, List.all_eq_true, decide_eq_true_eq] at hinv ⊢
  intro q hq
  rcases mem_dictSet d k v q hq with h | h
  · simpa [h] using hv
  · exact hinv q h

theorem invNonneg_dictSet (d : Inv) (k : String) (v : Int)
    (hinv : invNonneg d = true) (hv : 0 ≤ v) :
    invNonneg (dictSet d k v) = true := by
  simp only [invNonneg, List.all_eq_true, decide_eq_true_eq] at hinv ⊢
  intro q hq
  rcases mem_dictSet d k v q hq with h | h
  · simpa [h] using hv
  · exact hinv q h

theorem invOk_dictDel (d : Inv) (k : String)
    (hinv : invOk d = true) : invOk (dictDel d k) = true := by
  simp only [invOk, List.all_eq_true, decide_eq_true_eq] at hinv ⊢
  intro q hq
  exact hinv q (mem_dictDel d k q hq)

theorem dictGet_dictDel_self (d : Inv) (k : String)
    (hnodup : (d.map Prod.fst).Nodup) : dictGet (dictDel d k) k 0 = 0 := by
  induction d with
  | nil => rfl
  | cons p d ih =>
      simp only [List.map_cons, List.nodup_cons] at hnodup
      rw [dictDel]
      split
      · next h =>
          apply dictGet_of_not_mem
          by_contra hmem
          simp only [Bool.not_eq_false] at hmem
          have hk : k ∈ d.map Prod.fst := (dictMem_eq_true_iff d k).mp hmem
          rw [beq_iff_eq.mp h] at hnodup
          exact hnodup.1 hk
      · next h =>
          rw [dictGet, if_neg h]
          exact ih hnodup.2

theorem dictMem_dictDel_self (d : Inv) (k : String)
    (hnodup : (d.map Prod.fst).Nodup) : dictMem (dictDel d k) k = false := by
  induction d with
  | nil => rfl
  | cons p d ih =>
      simp only [List.map_cons, List.nodup_cons] at hnodup
      rw [dictDel]
      split
      · next h =>
          by_contra hmem
          simp only [Bool.not_eq_false] at hmem
          have hk : k ∈ d.map Prod.fst := (dictMem_eq_true_iff d k).mp hmem
          rw [beq_iff_eq.mp h] at hnodup
          exact hnodup.1 hk
      · next h =>
          rw [dictMem]
          simp only [Bool.or_eq_false_iff]
          exact ⟨by simpa using fun hk => h (by simp [hk]), ih hnodup.2⟩

theorem invNonneg_of_invOk (d : Inv) (h : invOk d = true) :
    invNonneg d = true := by
  simp only [invOk, List.all_eq_true, decide_eq_true_eq] at h
  simp only [invNonneg, List.all_eq_true, decide_eq_true_eq]
  exact fun q hq => le_of_lt (h q hq)

/-! ### Unfolding lemmas for the operations on valid inputs -/

theorem add_item_valid (stock : Inv) (s : String) (n : Int) (logs : List String)
    (now : String) (hs : s ≠ "") (hn : 0 ≤ n) :
    add_item stock (PyVal.vstr s) (PyVal.vint n) logs now =
      (dictSet stock s (dictGet stock s 0 + n),
       logs ++ [now ++ ": Added " ++ toString n ++ " of " ++ s], true) := by
  simp [add_item, truthy, isStr, isInt, intVal, strVal, pyStr, hs, not_lt.mpr hn]

theorem remove_item_valid (stock : Inv) (item : String) (n : Int)
    (hmem : dictMem stock item = true) (hn : 0 ≤ n) :
    remove_item stock item (PyVal.vint n) =
      if dictGet stock item 0 - n ≤ 0 then (dictDel stock item, true)
      else (dictSet stock item (dictGet stock item 0 - n), true) := by
  simp [remove_item, hmem, isInt, intVal, not_lt.mpr hn]

theorem check_low_items_eq (inv : Inv) (t : Int) :
    check_low_items inv t = (inv.filter fun p => decide (p.2 < t)).map Prod.fst := by
  induction inv with
  | nil => rfl
  | cons p d ih =>
      by_cases h : p.2 < t
      · simp [check_low_items, h, List.filter_cons, ih]
      · simp [check_low_items, h, List.filter_cons, ih]

/-! ### Claims -/

/-- Claim C5: for every inventory state, calling `add_item` with an item that
is the empty string or not a string, or with a qty that is not an integer or
is negative, returns `False` and leaves the inventory mapping (and the log)
completely unchanged. -/
theorem claim_C5 (inv : Inv) (item qty : PyVal) (logs : List String)
    (now : String)
    (h : item = PyVal.vstr "" ∨ isStr item = false ∨ isInt qty = false ∨
         intVal qty < 0) :
    add_item inv item qty logs now = (inv, logs, false) := by
  rcases h with h | h | h | h
  · simp [add_item, h, truthy]
  · simp [add_item, h]
  · by_cases hc : (!truthy item || !isStr item) = true
    · simp [add_item, hc]
    · simp [add_item, hc, h]
  · by_cases hc : (!truthy item || !isStr item) = true
    · simp [add_item, hc]
    · simp [add_item, hc, h]

/-- Witness for C5: `add_item(123, "ten")` (both arguments ill-typed, as in
the module's own `main`) fails and changes nothing. -/
theorem claim_C5_witness :
    (isStr (PyVal.vint 123) = false ∨ isInt (PyVal.vstr "ten") = false) ∧
    add_item [("apple", 10)] (PyVal.vint 123) (PyVal.vstr "ten") [] "t"
      = ([("apple", 10)], [], false) :=
  ⟨Or.inl rfl,
   claim_C5 [("apple", 10)] (PyVal.vint 123) (PyVal.vstr "ten") [] "t"
     (Or.inr (Or.inl rfl))⟩

/-- Claim C7: `remove_item` on an item absent from the inventory returns
`False` and leaves the inventory unchanged; the `KeyError` raised internally
is caught by the function itself, so the caller only sees the boolean. -/
theorem claim_C7 (inv : Inv) (item : String) (qty : PyVal)
    (habs : dictMem inv item = false) :
    remove_item inv item qty = (inv, false) := by
  simp [remove_item, habs]

/-- Witness for C7: removing `"orange"` from `{apple: 7}` fails and leaves
the inventory unchanged. -/
theorem claim_C7_witness :
    dictMem [("apple", 7)] "orange" = false ∧
    remove_item [("apple", 7)] "orange" (PyVal.vint 1) = ([("apple", 7)], false) :=
  ⟨by decide, claim_C7 [("apple", 7)] "orange" (PyVal.vint 1) (by decide)⟩

/-- Claim C9: `remove_item` with a present item but an invalid qty (negative,
or not an integer) returns `False` and leaves the inventory unchanged: the
quantity check happens before any mutation. -/
theorem claim_C9 (inv : Inv) (item : String) (qty : PyVal)
    (hmem : dictMem inv item = true)
    (hbad : isInt qty = false ∨ intVal qty < 0) :
    remove_item inv item qty = (inv, false) := by
  rcases hbad with h | h
  · simp [remove_item, hmem, h]
  · simp [remove_item, hmem, h]

/-- Witness for C9: `remove_item("apple", -1)` and `remove_item("apple", "x")`
on `{apple: 7}` both fail without mutating. -/
theorem claim_C9_witness :
    (dictMem [("apple", 7)] "apple" = true ∧ intVal (PyVal.vint (-1)) < 0 ∧
     remove_item [("apple", 7)] "apple" (PyVal.vint (-1)) = ([("apple", 7)], false)) ∧
    (isInt (PyVal.vstr "x") = false ∧
     remove_item [("apple", 7)] "apple" (PyVal.vstr "x") = ([("apple", 7)], false)) :=
  ⟨⟨by decide, by decide,
    claim_C9 [("apple", 7)] "apple" (PyVal.vint (-1)) (by decide) (Or.inr (by decide))⟩,
   ⟨rfl,
    claim_C9 [("apple", 7)] "apple" (PyVal.vstr "x") (by decide) (Or.inl rfl)⟩⟩

/-- Claim C6: on a well-formed dict (distinct keys), `remove_item` with a
present item and a valid integer qty ≥ 0 succeeds; when qty is at least the
current quantity the entry is deleted entirely (not retained at zero or
below, no longer a member) and `get_qty` afterwards returns 0; when qty is
strictly below the current quantity the entry is retained at the
decremented, strictly positive value. -/
theorem claim_C6 (inv : Inv) (item : String) (n : Int)
    (hnodup : (inv.map Prod.fst).Nodup)
    (hmem : dictMem inv item = true) (hn : 0 ≤ n) :
    (dictGet inv item 0 ≤ n →
       remove_item inv item (PyVal.vint n) = (dictDel inv item, true) ∧
       get_qty (remove_item inv item (PyVal.vint n)).1 item = 0 ∧
       dictMem (remove_item inv item (PyVal.vint n)).1 item = false) ∧
    (n < dictGet inv item 0 →
       remove_item inv item (PyVal.vint n)
         = (dictSet inv item (dictGet inv item 0 - n), true) ∧
       get_qty (remove_item inv item (PyVal.vint n)).1 item
         = dictGet inv item 0 - n ∧
       0 < dictGet inv item 0 - n) := by
  rw [remove_item_valid inv item n hmem hn]
  constructor
  · intro hle
    rw [if_pos (by omega)]
    exact ⟨rfl, dictGet_dictDel_self inv item hnodup,
      dictMem_dictDel_self inv item hnodup⟩
  · intro hlt
    rw [if_neg (by omega)]
    exact ⟨rfl, dictGet_dictSet_self inv item _, by omega⟩

/-- Witness for C6: on `{apple: 7, banana: 2}`, `remove_item("banana", 2)`
deletes the entry and `get_qty` returns 0, while `remove_item("apple", 3)`
retains apple at 4. -/
theorem claim_C6_witness :
    (remove_item [("apple", 7), ("banana", 2)] "banana" (PyVal.vint 2)
       = ([("apple", 7)], true) ∧
     get_qty (remove_item [("apple", 7), ("banana", 2)] "banana" (PyVal.vint 2)).1
       "banana" = 0) ∧
    (remove_item [("apple", 7), ("banana", 2)] "apple" (PyVal.vint 3)
       = ([("apple", 4), ("banana", 2)], true) ∧
     0 < dictGet [("apple", 7), ("banana", 2)] "apple" 0 - 3) :=
  ⟨⟨by
      have h := (claim_C6 [("apple", 7), ("banana", 2)] "banana" 2 (by decide)
        (by decide) (by decide)).1 (by decide)
      exact h.1.trans (by decide),
    ((claim_C6 [("apple", 7), ("banana", 2)] "banana" 2 (by decide)
        (by decide) (by decide)).1 (by decide)).2.1⟩,
   ⟨by
      have h := (claim_C6 [("apple", 7), ("banana", 2)] "apple" 3 (by decide)
        (by decide) (by decide)).2 (by decide)
      exact h.1.trans (by decide),
    ((claim_C6 [("apple", 7), ("banana", 2)] "apple" 3 (by decide)
        (by decide) (by decide)).2 (by decide)).2.2⟩⟩

/-- Claim C8: `check_low_items(threshold)` returns exactly the item names
whose quantity is strictly below the threshold, in the dict's insertion
order (its output is a subsequence of the key sequence), and on
`{apple: 7, banana: 2}` with the default threshold 5 it returns
`["banana"]`. -/
theorem claim_C8 :
    (∀ (inv : Inv) (t : Int) (s : String),
        s ∈ check_low_items inv t ↔ ∃ q, (s, q) ∈ inv ∧ q < t) ∧
    (∀ (inv : Inv) (t : Int),
        (check_low_items inv t).Sublist (inv.map Prod.fst)) ∧
    check_low_items [("apple", 7), ("banana", 2)] 5 = ["banana"] := by
  refine ⟨?_, ?_, by decide⟩
  · intro inv t s
    rw [check_low_items_eq]
    simp only [List.mem_map, List.mem_filter, decide_eq_true_eq]
    constructor
    · rintro ⟨⟨a, b⟩, ⟨h1, h2⟩, rfl⟩
      exact ⟨b, h1, h2⟩
    · rintro ⟨q, h1, h2⟩
      exact ⟨(s, q), ⟨h1, h2⟩, rfl⟩
  · intro inv t
    rw [check_low_items_eq]
    exact (List.filter_sublist inv).map Prod.fst

/-- Folding a sequence of valid adds for one item accumulates its quantity. -/
theorem get_qty_foldl_adds (item : String) (hitem : item ≠ "") :
    ∀ (qtys : List Int) (inv : Inv), (∀ q ∈ qtys, 0 ≤ q) →
    get_qty (qtys.foldl (fun st q =>
        (add_item st (PyVal.vstr item) (PyVal.vint q) [] "").1) inv) item
      = get_qty inv item + qtys.sum := by
  intro qtys
  induction qtys with
  | nil => intro inv _; simp
  | cons q qs ih =>
      intro inv hq
      rw [List.foldl_cons,
        ih _ fun x hx => hq x (List.mem_cons_of_mem q hx),
        add_item_valid inv item q [] "" hitem (hq q (List.mem_cons_self q qs))]
      show dictGet (dictSet inv item (dictGet inv item 0 + q)) item 0 + qs.sum = _
      rw [dictGet_dictSet_self, List.sum_cons]
      show dictGet inv item 0 + q + qs.sum = dictGet inv item 0 + (q + qs.sum)
      omega

/-- Claim C3: each `add_item` with a non-empty string item and an integer
qty ≥ 0 returns `True` and sets the item's stored quantity to its previous
value (0 when absent) plus qty; hence after any sequence of such adds,
`get_qty(item)` equals its initial value plus the sum of the added
quantities (the plain sum when the item started absent). -/
theorem claim_C3 (inv : Inv) (item : String) (qtys : List Int)
    (hitem : item ≠ "") (hq : ∀ q ∈ qtys, 0 ≤ q) :
    (∀ (st : Inv) (logs : List String) (now : String), ∀ q ∈ qtys,
        (add_item st (PyVal.vstr item) (PyVal.vint q) logs now).2.2 = true ∧
        get_qty (add_item st (PyVal.vstr item) (PyVal.vint q) logs now).1 item
          = get_qty st item + q) ∧
    get_qty (qtys.foldl (fun st q =>
        (add_item st (PyVal.vstr item) (PyVal.vint q) [] "").1) inv) item
      = get_qty inv item + qtys.sum ∧
    (dictMem inv item = false →
       get_qty (qtys.foldl (fun st q =>
           (add_item st (PyVal.vstr item) (PyVal.vint q) [] "").1) inv) item
         = qtys.sum) := by
  refine ⟨?_, get_qty_foldl_adds item hitem qtys inv hq, ?_⟩
  · intro st logs now q hqm
    rw [add_item_valid st item q logs now hitem (hq q hqm)]
    exact ⟨rfl, dictGet_dictSet_self st item _⟩
  · intro habs
    rw [get_qty_foldl_adds item hitem qtys inv hq]
    unfold get_qty
    rw [dictGet_of_not_mem inv item 0 habs, Int.zero_add]

/-- Witness for C3: adding 10 then 5 of `"apple"` to an empty inventory
makes `get_qty("apple")` equal 15. -/
theorem claim_C3_witness :
    ("apple" ≠ "" ∧ ∀ q ∈ ([10, 5] : List Int), 0 ≤ q) ∧
    get_qty (([10, 5] : List Int).foldl (fun st q =>
        (add_item st (PyVal.vstr "apple") (PyVal.vint q) [] "").1) []) "apple"
      = get_qty ([] : Inv) "apple" + ([10, 5] : List Int).sum :=
  ⟨⟨by decide, by decide⟩,
   (claim_C3 [] "apple" [10, 5] (by decide) (by decide)).2.1⟩

/-- Claim C4: `load_data` distinguishes its two failure modes: a missing
file resets the in-memory inventory to the empty dict and returns `False`;
a present but malformed file returns `False` with the previous in-memory
inventory exactly unchanged.  Both exceptions are caught inside `load_data`,
so neither failure raises to the caller. -/
theorem claim_C4 (fs : FS) (stock : JVal) (file : String) :
    (fs file = FileContent.absent →
       load_data fs stock file = (JVal.obj [], false)) ∧
    (fs file = FileContent.malformed →
       load_data fs stock file = (stock, false)) := by
  constructor <;> intro h <;> simp [load_data, h]

/-- Witness for C4: loading a missing file empties the store and fails;
loading a malformed file fails and keeps `{apple: 7}` intact. -/
theorem claim_C4_witness :
    load_data (fun _ => FileContent.absent)
        (JVal.obj [("apple", JVal.int 7)]) "inventory.json"
      = (JVal.obj [], false) ∧
    load_data (fun _ => FileContent.malformed)
        (JVal.obj [("apple", JVal.int 7)]) "inventory.json"
      = (JVal.obj [("apple", JVal.int 7)], false) :=
  ⟨(claim_C4 (fun _ => FileContent.absent)
      (JVal.obj [("apple", JVal.int 7)]) "inventory.json").1 rfl,
   (claim_C4 (fun _ => FileContent.malformed)
      (JVal.obj [("apple", JVal.int 7)]) "inventory.json").2 rfl⟩

/-- Claim C10: `load_data` validates nothing: whenever the file parses to
any JSON document at all, it returns `True` and replaces the whole
in-memory inventory with that document verbatim, even when it is not an
object of non-empty string keys and non-negative integers. -/
theorem claim_C10 (fs : FS) (stock : JVal) (file : String) (v : JVal)
    (h : fs file = FileContent.json v) :
    load_data fs stock file = (v, true) := by
  simp [load_data, h]

/-- Witness for C10: a file holding the object `{"a": -3, "b": "x"}` and a
file holding the bare array `[1]` are both installed wholesale, with
success reported. -/
theorem claim_C10_witness :
    load_data
        (fun _ => FileContent.json
          (JVal.obj [("a", JVal.int (-3)), ("b", JVal.str "x")]))
        (JVal.obj []) "inventory.json"
      = (JVal.obj [("a", JVal.int (-3)), ("b", JVal.str "x")], true) ∧
    load_data (fun _ => FileContent.json (JVal.arr [JVal.int 1]))
        (JVal.obj []) "inventory.json"
      = (JVal.arr [JVal.int 1], true) :=
  ⟨claim_C10 _ _ "inventory.json" _ rfl,
   claim_C10 _ _ "inventory.json" _ rfl⟩

/-- Claim C2: for an inventory dict of non-empty string keys and
non-negative integer values, `save_data` to a path followed by `load_data`
from the same path on a fresh (empty) store succeeds and reproduces the
identical mapping: same keys, same integer values, in the same order. -/
theorem claim_C2 (inv : Inv) (fs : FS) (path : String)
    (_hkeys : ∀ p ∈ inv, p.1 ≠ "") (_hvals : ∀ p ∈ inv, 0 ≤ p.2) :
    (save_data fs (ofInv inv) path).2 = true ∧
    load_data (save_data fs (ofInv inv) path).1 (JVal.obj []) path
      = (ofInv inv, true) := by
  refine ⟨rfl, ?_⟩
  simp [save_data, load_data]

/-- Witness for C2: `{apple: 7, banana: 2}` saved to `inventory.json` over
an empty file system loads back identically onto a fresh store. -/
theorem claim_C2_witness :
    ((∀ p ∈ ([("apple", 7), ("banana", 2)] : Inv), p.1 ≠ "") ∧
     (∀ p ∈ ([("apple", 7), ("banana", 2)] : Inv), 0 ≤ p.2)) ∧
    ((save_data (fun _ => FileContent.absent)
        (ofInv [("apple", 7), ("banana", 2)]) "inventory.json").2 = true ∧
     load_data (save_data (fun _ => FileContent.absent)
          (ofInv [("apple", 7), ("banana", 2)]) "inventory.json").1
        (JVal.obj []) "inventory.json"
       = (ofInv [("apple", 7), ("banana", 2)], true)) :=
  ⟨⟨by decide, by decide⟩,
   claim_C2 [("apple", 7), ("banana", 2)] (fun _ => FileContent.absent)
     "inventory.json" (by decide) (by decide)⟩

/-- Counterexample to claim C1 as stated.  Two breaches at concrete inputs:
(1) on an empty inventory (where the invariant holds), `add_item("a", 0)` is
a successful add that stores the entry `a ↦ 0`, an entry with quantity ≤ 0;
(2) from a state satisfying the invariant, `load_data` of a file parsing to
`{"a": -3}` succeeds and installs an entry with quantity -3 ≤ 0. -/
theorem claim_C1_counterexample :
    (invOk [] = true ∧
     (add_item [] (PyVal.vstr "a") (PyVal.vint 0) [] "t").2.2 = true ∧
     (add_item [] (PyVal.vstr "a") (PyVal.vint 0) [] "t").1 = [("a", 0)] ∧
     invOk [("a", 0)] = false) ∧
    (jinvOk (JVal.obj []) = true ∧
     load_data (fun _ => FileContent.json (JVal.obj [("a", JVal.int (-3))]))
         (JVal.obj []) "inventory.json"
       = (JVal.obj [("a", JVal.int (-3))], true) ∧
     jinvOk (JVal.obj [("a", JVal.int (-3))]) = false) :=
  ⟨⟨rfl, by decide, by decide, by decide⟩, ⟨rfl, rfl, by decide⟩⟩

/-- Claim C1 as amended: `add_item` and `remove_item` preserve the
invariants the code actually maintains, and `load_data` preserves the
invariant exactly when the installed document does.  Specifically:
(1) every `add_item` call preserves the weaker invariant that no entry is
strictly negative (a valid add of qty 0 to an absent item stores the entry
at exactly 0, so "no entry ≤ 0" is not preserved);
(2) `add_item` preserves "no entry ≤ 0" whenever the added quantity is
strictly positive or the item is already present;
(3) every `remove_item` call preserves "no entry ≤ 0" (a drop to ≤ 0
deletes the entry);
(4) `load_data` yields a state satisfying "no integer entry ≤ 0" provided
the previous state did and the file's parsed document (if any) does — it
installs the document verbatim, with no validation of its own. -/
theorem claim_C1_amended :
    (∀ (inv : Inv) (item qty : PyVal) (logs : List String) (now : String),
        invNonneg inv = true →
        invNonneg (add_item inv item qty logs now).1 = true) ∧
    (∀ (inv : Inv) (item qty : PyVal) (logs : List String) (now : String),
        invOk inv = true →
        (0 < intVal qty ∨ dictMem inv (strVal item) = true) →
        invOk (add_item inv item qty logs now).1 = true) ∧
    (∀ (inv : Inv) (item : String) (qty : PyVal),
        invOk inv = true → invOk (remove_item inv item qty).1 = true) ∧
    (∀ (fs : FS) (stock : JVal) (file : String),
        jinvOk stock = true → fileInvOk (fs file) = true →
        jinvOk (load_data fs stock file).1 = true) := by
  refine ⟨?_, ?_, ?_, ?_⟩
  · intro inv item qty logs now hinv
    rw [add_item]
    split
    · exact hinv
    · split
      · exact hinv
      · next h =>
          simp only [Bool.or_eq_true, Bool.not_eq_eq_eq_not, Bool.not_true,
            decide_eq_true_eq, not_or] at h
          exact invNonneg_dictSet _ _ _ hinv
            (add_nonneg (dictGet_nonneg inv _ hinv) (not_lt.mp h.2))
  · intro inv item qty logs now hinv hpos
    rw [add_item]
    split
    · exact hinv
    · split
      · exact hinv
      · next h =>
          simp only [Bool.or_eq_true, Bool.not_eq_eq_eq_not, Bool.not_true,
            decide_eq_true_eq, not_or] at h
          apply invOk_dictSet _ _ _ hinv
          rcases hpos with hq | hmem
          · have := dictGet_nonneg inv (strVal item) (invNonneg_of_invOk inv hinv)
            omega
          · have := dictGet_pos_of_mem inv (strVal item) hinv hmem
            have := not_lt.mp h.2
            omega
  · intro inv item qty hinv
    rw [remove_item]
    split
    · exact hinv
    · split
      · exact hinv
      · show invOk
            (if dictGet inv item 0 - intVal qty ≤ 0 then (dictDel inv item, true)
             else (dictSet inv item (dictGet inv item 0 - intVal qty), true)).1 = true
        split
        · next h => exact invOk_dictDel _ _ hinv
        · next h => exact invOk_dictSet _ _ _ hinv (by omega)
  · intro fs stock file hstock hfile
    rw [load_data]
    cases hfs : fs file with
    | json v => simpa [fileInvOk, hfs] using hfile
    | absent => rfl
    | malformed => exact hstock

/-- Witness for the amended C1: concrete instances of all four parts — a
qty-0 add keeps entries non-negative, a positive add keeps them positive,
a remove keeps them positive, and a load of a well-formed positive document
keeps the invariant. -/
theorem claim_C1_amended_witness :
    invNonneg (add_item [("a", 2)] (PyVal.vstr "b") (PyVal.vint 0) [] "t").1 = true ∧
    invOk (add_item [("a", 2)] (PyVal.vstr "b") (PyVal.vint 3) [] "t").1 = true ∧
    invOk (remove_item [("a", 2)] "a" (PyVal.vint 1)).1 = true ∧
    jinvOk (load_data (fun _ => FileContent.json (JVal.obj [("a", JVal.int 2)]))
        (JVal.obj []) "inventory.json").1 = true :=
  ⟨claim_C1_amended.1 [("a", 2)] (PyVal.vstr "b") (PyVal.vint 0) [] "t" (by decide),
   claim_C1_amended.2.1 [("a", 2)] (PyVal.vstr "b") (PyVal.vint 3) [] "t"
     (by decide) (Or.inl (by decide)),
   claim_C1_amended.2.2.1 [("a", 2)] "a" (PyVal.vint 1) (by decide),
   claim_C1_amended.2.2.2 (fun _ => FileContent.json (JVal.obj [("a", JVal.int 2)]))
     (JVal.obj []) "inventory.json" rfl rfl⟩

end InventoryPy
